import Mathlib

/-!
Shallow embedding of the decaf debouncing middleware (src/src/lib.rs).

The middleware sits between an agent and a client, buffering
`AgentMessageChunk` notifications whose content is plain text and
flushing the coalesced text on three triggers: a periodic timer tick,
the arrival of a non-text ("boundary") notification for a session, and
the response to a `PromptRequest`.

The embedding models:
  * the sacp schema types the code matches on (`SessionNotification`,
    `SessionUpdate`, `ContentChunk`, `ContentBlock`, `TextContent`) with
    the fields the middleware reads or must preserve; fields the code
    never inspects (metadata, annotations, the payloads of non-text
    content and of non-chunk updates) appear as opaque stand-ins that
    the code must carry through verbatim;
  * the session buffer store (`HashMap<SessionId, BufferedSession>`
    under one mutex) as an association list, with the lock's atomic
    sections as pure functions on the whole store;
  * `flush_session` / `flush_all` (lib.rs lines 147-198) and the two
    dispatch handlers of `Decaf::run` (lines 63-134) as a step function
    over inbound events, producing the list of messages handed to
    `send_notification_to(Client, ..)` in order.
-/

namespace Decaf

/-- Opaque comparable session identifier (`sacp::schema::SessionId`). -/
abbrev SessionId := String

/-- `TextContent`: the text payload plus opaque stand-ins for the fields
the middleware never touches (annotations, meta). -/
structure TextContent where
  text : String
  annots : Option String
  meta : Option String
deriving DecidableEq, Repr

/-- `ContentBlock`: either plain text or one of the other content kinds
(image, audio, resource, ...), whose payload the middleware never
inspects. -/
inductive ContentBlock where
  | text (tc : TextContent)
  | otherContent (payload : String)
deriving DecidableEq, Repr

/-- `ContentChunk`: a content block plus the chunk's remaining fields
(matched with `..` in the source), carried through opaquely. -/
structure ContentChunk where
  content : ContentBlock
  meta : Option String
deriving DecidableEq, Repr

/-- `SessionUpdate`: the `AgentMessageChunk` variant the middleware cares
about, and every other update variant collapsed into `otherUpdate`. -/
inductive SessionUpdate where
  | agentMessageChunk (chunk : ContentChunk)
  | otherUpdate (payload : String)
deriving DecidableEq, Repr

/-- `SessionNotification`: session id, update payload, and an opaque
stand-in for the remaining fields (`meta`), which the middleware must
echo verbatim. -/
structure SessionNotification where
  session_id : SessionId
  update : SessionUpdate
  meta : Option String
deriving DecidableEq, Repr

/-- `BufferedSession` (lib.rs lines 40-47): accumulated text plus the most
recent notification, kept as the template for the coalesced flush. -/
structure BufferedSession where
  text : String
  template : SessionNotification
deriving DecidableEq, Repr

/-- The session buffer store: `HashMap<SessionId, BufferedSession>`,
modelled as an association list. -/
abbrev Store := List (SessionId × BufferedSession)

/-- `HashMap::get` / `get_mut`: first entry with the given key. -/
def lookup : Store → SessionId → Option BufferedSession
  | [], _ => none
  | (k, b) :: rest, id => if k = id then some b else lookup rest id

/-- Mutation through `get_mut`: replace the value stored at `id`,
leaving every other entry alone (no entry is ever created here). -/
def setStore : Store → SessionId → BufferedSession → Store
  | [], _, _ => []
  | (k, v) :: rest, id, b =>
      if k = id then (k, b) :: setStore rest id b else (k, v) :: setStore rest id b

/-- The classification at lib.rs lines 70-76: a notification is a text
chunk iff its update is `AgentMessageChunk` with `Text` content. -/
def is_text_chunk (n : SessionNotification) : Bool :=
  match n.update with
  | .agentMessageChunk ⟨.text _, _⟩ => true
  | _ => false

/-- Result of the text extraction at lib.rs lines 81-87: the wildcard arm
of that `match` is `unreachable!()`, i.e. a panic, modelled by
`panicked`. -/
inductive ExtractedText where
  | ok (t : String)
  | panicked
deriving DecidableEq, Repr

/-- The extraction `match` at lib.rs lines 81-87: pull the text out of the
update; any other shape hits the `unreachable!()` arm. -/
def chunkText (n : SessionNotification) : ExtractedText :=
  match n.update with
  | .agentMessageChunk ⟨.text tc, _⟩ => .ok tc.text
  | _ => .panicked

/-- The buffering step at lib.rs lines 89-103: append to an existing
record (refreshing its template) or insert a fresh record. -/
def accumulate (s : Store) (n : SessionNotification) (text : String) : Store :=
  match lookup s n.session_id with
  | some buffered =>
      setStore s n.session_id { text := buffered.text ++ text, template := n }
  | none =>
      s ++ [(n.session_id, { text := text, template := n })]

/-- The conditional text replacement at lib.rs lines 157-166: clone the
template and, when its update is a text chunk, substitute the coalesced
text; otherwise the clone is left untouched. -/
def replaceChunkText (n : SessionNotification) (text : String) : SessionNotification :=
  { n with
    update :=
      match n.update with
      | .agentMessageChunk ⟨.text tc, cm⟩ =>
          .agentMessageChunk ⟨.text { tc with text := text }, cm⟩
      | u => u }

/-- The locked section of `flush_session` (lib.rs lines 152-172): when the
session has non-empty buffered text, take it (leaving the buffer empty)
and build the coalesced notification from the template; otherwise leave
the store untouched and produce nothing.  The returned option is what is
handed to `cx.send_notification_to(Client, ..)` at lines 174-176. -/
def flush_session (s : Store) (id : SessionId) : Store × Option SessionNotification :=
  match lookup s id with
  | some buffered =>
      if buffered.text = "" then (s, none)
      else
        (setStore s id { buffered with text := "" },
         some (replaceChunkText buffered.template buffered.text))
  | none => (s, none)

/-- The snapshot taken in `flush_all` (lib.rs lines 184-191): ids of all
sessions whose buffered text is non-empty. -/
def pendingSessionIds (s : Store) : List SessionId :=
  (s.filter fun p => decide (p.2.text ≠ "")).map Prod.fst

/-- The sequential loop of `flush_all` (lib.rs lines 193-195): flush each
id in turn, collecting the notifications sent, in order. -/
def flushLoop : Store → List SessionId → Store × List SessionNotification
  | s, [] => (s, [])
  | s, id :: ids =>
      let r := flush_session s id
      let rest := flushLoop r.1 ids
      (rest.1, r.2.toList ++ rest.2)

/-- `flush_all` (lib.rs lines 182-198): snapshot the pending ids, then
flush them sequentially. -/
def flush_all (s : Store) : Store × List SessionNotification :=
  flushLoop s (pendingSessionIds s)

/-- The inbound dispatches `Decaf::run` reacts to: a session notification
from the agent, the response to the in-flight `PromptRequest`, and a
tick of the periodic interval task. -/
inductive Event where
  | notif (n : SessionNotification)
  | promptResponse
  | tick
deriving DecidableEq, Repr

/-- What the middleware emits downstream, in order: notifications sent to
the client, and the forwarded prompt response. -/
inductive Out where
  | notif (n : SessionNotification)
  | promptDone
deriving DecidableEq, Repr

/-- One reaction of `Decaf::run` (lib.rs lines 63-134): text chunks are
buffered (nothing emitted); any other notification first flushes its
session, then is forwarded unmodified; a prompt response first flushes
every session, then the response is forwarded; a timer tick flushes
every session.  `none` models the `unreachable!()` panic at line 86. -/
def step (s : Store) (e : Event) : Option (Store × List Out) :=
  match e with
  | .notif n =>
      if is_text_chunk n then
        match chunkText n with
        | .ok text => some (accumulate s n text, [])
        | .panicked => none
      else
        let r := flush_session s n.session_id
        some (r.1, r.2.toList.map Out.notif ++ [Out.notif n])
  | .promptResponse =>
      let r := flush_all s
      some (r.1, r.2.map Out.notif ++ [Out.promptDone])
  | .tick =>
      let r := flush_all s
      some (r.1, r.2.map Out.notif)

/-- Run the middleware over a list of inbound events, collecting
everything emitted downstream in order. -/
def run (s : Store) : List Event → Option (Store × List Out)
  | [] => some (s, [])
  | e :: es =>
      (step s e).bind fun p => (run p.1 es).map fun q => (q.1, p.2 ++ q.2)

/-- `flush_session` followed by the send at lib.rs lines 174-178, with the
send abstracted as a fallible oracle: the drained store is kept whether
or not the send succeeds, and a send failure is propagated as the
function's error. -/
def flush_session_io (send : SessionNotification → Except String Unit)
    (s : Store) (id : SessionId) : Store × Except String Unit :=
  let r := flush_session s id
  match r.2 with
  | some n => (r.1, send n)
  | none => (r.1, Except.ok ())

/-- The text carried by an update, when its content is plain text. -/
def updateText : SessionUpdate → Option String
  | .agentMessageChunk ⟨.text tc, _⟩ => some tc.text
  | _ => none

/-- The text currently buffered for a session (empty when absent). -/
def bufText (s : Store) (id : SessionId) : String :=
  match lookup s id with
  | some b => b.text
  | none => ""

/-- Store well-formedness: every stored record's template came from a
text-chunk notification for its own session.  Holds in every reachable
state because templates are only written at lib.rs lines 92 and 99, both
guarded by the classification at lines 70-76. -/
def storeWF (s : Store) : Prop :=
  ∀ id b, lookup s id = some b →
    b.template.session_id = id ∧ is_text_chunk b.template = true

/-- The text a notification contributes to session `sid`: its text
payload when it belongs to `sid` and its content is plain text, nothing
otherwise. -/
def notifText (sid : SessionId) (n : SessionNotification) : String :=
  if n.session_id = sid then (updateText n.update).getD "" else ""

def notifConcat (sid : SessionId) : List SessionNotification → String
  | [] => ""
  | n :: ns => notifText sid n ++ notifConcat sid ns

def outText (sid : SessionId) : Out → String
  | .notif n => notifText sid n
  | .promptDone => ""

def outConcat (sid : SessionId) : List Out → String
  | [] => ""
  | o :: os => outText sid o ++ outConcat sid os

def inputText (sid : SessionId) : Event → String
  | .notif n => notifText sid n
  | _ => ""

def inputConcat (sid : SessionId) : List Event → String
  | [] => ""
  | e :: es => inputText sid e ++ inputConcat sid es

/-- An event that is not a boundary event for session `sid`: either it
concerns a different session, is an accumulable text chunk, or is a
flush trigger. -/
def noBoundaryFor (sid : SessionId) : Event → Bool
  | .notif n => decide (n.session_id ≠ sid) || is_text_chunk n
  | _ => true

/-- Sample accumulable text-chunk notification, for concrete witnesses. -/
def sampleChunk (t : String) : SessionNotification :=
  { session_id := "s",
    update := .agentMessageChunk ⟨.text { text := t, annots := none, meta := none }, none⟩,
    meta := none }

/-- Sample boundary notification (a non-chunk session update). -/
def sampleBoundary : SessionNotification :=
  { session_id := "s", update := .otherUpdate "plan", meta := none }

/-- Sample store holding pending text for session "s". -/
def sampleStore : Store :=
  [("s", { text := "Hi ", template := sampleChunk "Hi " })]

/-! ### Store lemmas -/

theorem lookup_set_self (id : SessionId) (b0 b : BufferedSession) :
    ∀ s : Store, lookup s id = some b0 → lookup (setStore s id b) id = some b := by
  intro s
  induction s with
  | nil => intro h; simp [lookup] at h
  | cons p rest ih =>
    intro h
    obtain ⟨k, v⟩ := p
    by_cases hk : k = id
    · subst hk
      simp [setStore, lookup]
    · simp only [lookup, if_neg hk] at h
      simp only [setStore, if_neg hk, lookup]
      exact ih h

theorem lookup_set_other (id id' : SessionId) (b : BufferedSession)
    (h : id' ≠ id) : ∀ s : Store, lookup (setStore s id b) id' = lookup s id' := by
  intro s
  induction s with
  | nil => simp [setStore, lookup]
  | cons p rest ih =>
    obtain ⟨k, v⟩ := p
    by_cases hk : k = id
    · subst hk
      have hkid : k ≠ id' := fun hc => h hc.symm
      simp only [setStore, if_pos rfl, lookup, if_neg hkid]
      exact ih
    · by_cases hk' : k = id'
      · subst hk'
        simp [setStore, lookup, hk]
      · simp only [setStore, if_neg hk, lookup, if_neg hk']
        exact ih

theorem lookup_append_single (k id : SessionId) (b : BufferedSession) :
    ∀ s : Store, lookup (s ++ [(k, b)]) id =
      match lookup s id with
      | some x => some x
      | none => if k = id then some b else none := by
  intro s
  induction s with
  | nil => simp [lookup]
  | cons p rest ih =>
    obtain ⟨k', v⟩ := p
    by_cases hk : k' = id
    · simp [lookup, hk]
    · simpa [lookup, hk] using ih

/-! ### flush_session lemmas -/

theorem flush_session_lookup_other (s : Store) (id id' : SessionId) (h : id' ≠ id) :
    lookup (flush_session s id).1 id' = lookup s id' := by
  unfold flush_session
  cases hl : lookup s id with
  | none => simp
  | some b =>
    by_cases hb : b.text = ""
    · simp [hb]
    · simp [hb, lookup_set_other id id' _ h s]

theorem flush_session_lookup_self (s : Store) (id : SessionId) (b : BufferedSession)
    (h : lookup s id = some b) :
    lookup (flush_session s id).1 id = some { b with text := "" } := by
  unfold flush_session
  rw [h]
  by_cases hb : b.text = ""
  · have hbb : ({ b with text := "" } : BufferedSession) = b := by
      cases b
      simp_all
    simp [hb, hbb, h]
  · simp [hb, lookup_set_self id b _ s h]

theorem flush_session_lookup_none (s : Store) (id : SessionId)
    (h : lookup s id = none) : flush_session s id = (s, none) := by
  simp [flush_session, h]

theorem flush_session_emit (s : Store) (id : SessionId) :
    (flush_session s id).2 =
      match lookup s id with
      | some b => if b.text = "" then none else some (replaceChunkText b.template b.text)
      | none => none := by
  unfold flush_session
  cases lookup s id with
  | none => rfl
  | some b =>
    by_cases hb : b.text = ""
    · simp [hb]
    · simp [hb]

/-! ### accumulate lemmas -/

theorem accumulate_lookup_self (s : Store) (n : SessionNotification) (t : String) :
    lookup (accumulate s n t) n.session_id =
      some { text := bufText s n.session_id ++ t, template := n } := by
  unfold accumulate bufText
  cases hl : lookup s n.session_id with
  | some b => simp [lookup_set_self n.session_id b _ s hl]
  | none => simp [lookup_append_single, hl, String.empty_append]

theorem accumulate_lookup_other (s : Store) (n : SessionNotification) (t : String)
    (id : SessionId) (h : id ≠ n.session_id) :
    lookup (accumulate s n t) id = lookup s id := by
  unfold accumulate
  cases hl : lookup s n.session_id with
  | some b => simp [lookup_set_other n.session_id id _ h s]
  | none =>
    rw [lookup_append_single]
    cases hli : lookup s id with
    | some x => simp
    | none =>
      have : n.session_id ≠ id := fun hc => h hc.symm
      simp [this]

/-! ### Well-formedness: every stored template came from a text-chunk
notification for its own session -/

theorem replaceChunkText_session_id (n : SessionNotification) (t : String) :
    (replaceChunkText n t).session_id = n.session_id := rfl

theorem replaceChunkText_meta (n : SessionNotification) (t : String) :
    (replaceChunkText n t).meta = n.meta := rfl

theorem updateText_replaceChunkText (n : SessionNotification) (t : String)
    (h : is_text_chunk n = true) :
    updateText (replaceChunkText n t).update = some t := by
  unfold is_text_chunk at h
  unfold replaceChunkText updateText
  match hu : n.update with
  | .agentMessageChunk ⟨.text tc, cm⟩ => simp
  | .agentMessageChunk ⟨.otherContent p, cm⟩ => rw [hu] at h; simp at h
  | .otherUpdate p => rw [hu] at h; simp at h

theorem chunkText_of_is_text_chunk (n : SessionNotification)
    (h : is_text_chunk n = true) :
    ∃ tc cm, n.update = .agentMessageChunk ⟨.text tc, cm⟩ ∧ chunkText n = .ok tc.text := by
  unfold is_text_chunk at h
  unfold chunkText
  match hu : n.update with
  | .agentMessageChunk ⟨.text tc, cm⟩ => exact ⟨tc, cm, rfl, rfl⟩
  | .agentMessageChunk ⟨.otherContent p, cm⟩ => rw [hu] at h; simp at h
  | .otherUpdate p => rw [hu] at h; simp at h

theorem lookup_set_self_none (id : SessionId) (b : BufferedSession) :
    ∀ s : Store, lookup s id = none → lookup (setStore s id b) id = none := by
  intro s
  induction s with
  | nil => intro _; simp [setStore, lookup]
  | cons p rest ih =>
    intro h
    obtain ⟨k, v⟩ := p
    by_cases hk : k = id
    · subst hk; simp [lookup] at h
    · simp only [lookup, if_neg hk] at h
      simp only [setStore, if_neg hk, lookup, if_neg hk]
      exact ih h

theorem storeWF_set (s : Store) (id : SessionId) (b' : BufferedSession)
    (wf : storeWF s) (h1 : b'.template.session_id = id)
    (h2 : is_text_chunk b'.template = true) : storeWF (setStore s id b') := by
  intro id' b'' hl
  by_cases hid : id' = id
  · subst hid
    cases hs : lookup s id' with
    | none => rw [lookup_set_self_none id' b' s hs] at hl; exact absurd hl (by simp)
    | some b0 =>
      rw [lookup_set_self id' b0 b' s hs] at hl
      cases hl
      exact ⟨h1, h2⟩
  · rw [lookup_set_other id id' b' hid s] at hl
    exact wf id' b'' hl

theorem storeWF_accumulate (s : Store) (n : SessionNotification) (t : String)
    (wf : storeWF s) (h : is_text_chunk n = true) : storeWF (accumulate s n t) := by
  unfold accumulate
  cases hl : lookup s n.session_id with
  | some b => exact storeWF_set s n.session_id _ wf rfl h
  | none =>
    intro id' b'' hl'
    rw [lookup_append_single] at hl'
    cases hs : lookup s id' with
    | some x =>
      rw [hs] at hl'
      simp at hl'
      exact hl' ▸ wf id' x hs
    | none =>
      rw [hs] at hl'
      by_cases hk : n.session_id = id'
      · simp only [if_pos hk] at hl'
        cases hl'
        exact ⟨hk, h⟩
      · simp [if_neg hk] at hl'

theorem storeWF_flush_session (s : Store) (id : SessionId) (wf : storeWF s) :
    storeWF (flush_session s id).1 := by
  unfold flush_session
  cases hl : lookup s id with
  | none => exact wf
  | some b =>
    by_cases hb : b.text = ""
    · simpa [hb] using wf
    · simp only [if_neg hb]
      exact storeWF_set s id _ wf (wf id b hl).1 (wf id b hl).2

theorem storeWF_flushLoop (ids : List SessionId) :
    ∀ s : Store, storeWF s → storeWF (flushLoop s ids).1 := by
  induction ids with
  | nil => intro s wf; exact wf
  | cons id rest ih =>
    intro s wf
    simp only [flushLoop]
    exact ih _ (storeWF_flush_session s id wf)

theorem storeWF_flush_all (s : Store) (wf : storeWF s) : storeWF (flush_all s).1 :=
  storeWF_flushLoop (pendingSessionIds s) s wf

theorem storeWF_step (s : Store) (e : Event) (s' : Store) (outs : List Out)
    (wf : storeWF s) (h : step s e = some (s', outs)) : storeWF s' := by
  cases e with
  | notif n =>
    by_cases htc : is_text_chunk n
    · obtain ⟨tc, cm, _, hct⟩ := chunkText_of_is_text_chunk n htc
      simp only [step, if_pos htc, hct] at h
      cases h
      exact storeWF_accumulate s n tc.text wf htc
    · simp only [step, if_neg htc] at h
      cases h
      exact storeWF_flush_session s n.session_id wf
  | promptResponse =>
    simp only [step] at h
    cases h
    exact storeWF_flush_all s wf
  | tick =>
    simp only [step] at h
    cases h
    exact storeWF_flush_all s wf

theorem storeWF_run (es : List Event) :
    ∀ (s s' : Store) (outs : List Out), storeWF s →
      run s es = some (s', outs) → storeWF s' := by
  induction es with
  | nil =>
    intro s s' outs wf h
    simp only [run, Option.some.injEq] at h
    cases h
    exact wf
  | cons e rest ih =>
    intro s s' outs wf h
    simp only [run] at h
    cases hs : step s e with
    | none => rw [hs] at h; simp at h
    | some p =>
      obtain ⟨s1, out1⟩ := p
      rw [hs] at h
      simp only [Option.some_bind] at h
      cases hr : run s1 rest with
      | none => rw [hr] at h; simp at h
      | some q =>
        obtain ⟨s2, out2⟩ := q
        rw [hr] at h
        simp only [Option.map_some', Option.some.injEq, Prod.mk.injEq] at h
        have hwf1 : storeWF s1 := storeWF_step s e s1 out1 wf hs
        have := ih s1 s2 out2 hwf1 hr
        cases h.1
        exact this

theorem storeWF_nil : storeWF [] := by
  intro id b h
  simp [lookup] at h

/-! ### Emptiness after flush_all -/

theorem flush_session_lookup_self_empty (s : Store) (id : SessionId)
    (b' : BufferedSession) (h : lookup (flush_session s id).1 id = some b') :
    b'.text = "" := by
  cases hl : lookup s id with
  | none => rw [flush_session_lookup_none s id hl] at h; rw [hl] at h; exact absurd h (by simp)
  | some b =>
    rw [flush_session_lookup_self s id b hl] at h
    cases h
    rfl

theorem pendingSessionIds_cons (k : SessionId) (v : BufferedSession) (rest : Store) :
    pendingSessionIds ((k, v) :: rest) =
      if v.text = "" then pendingSessionIds rest else k :: pendingSessionIds rest := by
  simp only [pendingSessionIds, List.filter_cons]
  by_cases hv : v.text = ""
  · simp [hv]
  · simp [hv]

theorem mem_pendingSessionIds (id : SessionId) (b : BufferedSession) :
    ∀ s : Store, lookup s id = some b → b.text ≠ "" → id ∈ pendingSessionIds s := by
  intro s
  induction s with
  | nil => intro h _; simp [lookup] at h
  | cons p rest ih =>
    intro h hne
    obtain ⟨k, v⟩ := p
    rw [pendingSessionIds_cons]
    by_cases hk : k = id
    · subst hk
      have hvb : v = b := by simpa [lookup] using h
      subst hvb
      simp [hne]
    · simp only [lookup, if_neg hk] at h
      have := ih h hne
      by_cases hv : v.text = ""
      · simpa [hv] using this
      · simp only [if_neg hv]
        exact List.mem_cons_of_mem k this

theorem flushLoop_empties (ids : List SessionId) :
    ∀ s : Store, (∀ id b, lookup s id = some b → b.text ≠ "" → id ∈ ids) →
      ∀ id b', lookup (flushLoop s ids).1 id = some b' → b'.text = "" := by
  induction ids with
  | nil =>
    intro s hpre id b' hl
    simp only [flushLoop] at hl
    by_contra hne
    exact absurd (hpre id b' hl hne) (List.not_mem_nil id)
  | cons id0 rest ih =>
    intro s hpre id b' hl
    simp only [flushLoop] at hl
    refine ih (flush_session s id0).1 ?_ id b' hl
    intro id1 b1 hl1 hne1
    by_cases hid : id1 = id0
    · subst hid
      exact absurd (flush_session_lookup_self_empty s id1 b1 hl1) hne1
    · rw [flush_session_lookup_other s id0 id1 hid] at hl1
      have := hpre id1 b1 hl1 hne1
      simp only [List.mem_cons] at this
      rcases this with h | h
      · exact absurd h hid
      · exact h

theorem flush_all_empties (s : Store) (id : SessionId) (b : BufferedSession)
    (h : lookup (flush_all s).1 id = some b) : b.text = "" := by
  refine flushLoop_empties (pendingSessionIds s) s ?_ id b h
  intro id1 b1 hl1 hne1
  exact mem_pendingSessionIds id1 b1 s hl1 hne1

/-! ### Attributing downstream text to a session -/

theorem outConcat_append (sid : SessionId) (l1 l2 : List Out) :
    outConcat sid (l1 ++ l2) = outConcat sid l1 ++ outConcat sid l2 := by
  induction l1 with
  | nil => simp [outConcat]
  | cons o os ih => simp [outConcat, ih, String.append_assoc]

theorem outConcat_map_notif (sid : SessionId) (ns : List SessionNotification) :
    outConcat sid (ns.map Out.notif) = notifConcat sid ns := by
  induction ns with
  | nil => rfl
  | cons n ns ih => simp [outConcat, notifConcat, outText, ih]

theorem notifConcat_append (sid : SessionId) (l1 l2 : List SessionNotification) :
    notifConcat sid (l1 ++ l2) = notifConcat sid l1 ++ notifConcat sid l2 := by
  induction l1 with
  | nil => simp [notifConcat]
  | cons n ns ih => simp [notifConcat, ih, String.append_assoc]

theorem inputConcat_append (sid : SessionId) (l1 l2 : List Event) :
    inputConcat sid (l1 ++ l2) = inputConcat sid l1 ++ inputConcat sid l2 := by
  induction l1 with
  | nil => simp [inputConcat]
  | cons e es ih => simp [inputConcat, ih, String.append_assoc]

/-! ### Per-session no-loss accounting -/

theorem flush_session_concat (sid id0 : SessionId) (s : Store) (wf : storeWF s) :
    notifConcat sid (flush_session s id0).2.toList ++ bufText (flush_session s id0).1 sid
      = bufText s sid := by
  cases hl : lookup s id0 with
  | none =>
    rw [flush_session_lookup_none s id0 hl]
    simp [notifConcat]
  | some b =>
    by_cases hb : b.text = ""
    · have hfs : flush_session s id0 = (s, none) := by simp [flush_session, hl, hb]
      rw [hfs]
      simp [notifConcat]
    · have hfs : flush_session s id0 =
          (setStore s id0 { b with text := "" },
           some (replaceChunkText b.template b.text)) := by
        simp [flush_session, hl, hb]
      rw [hfs]
      obtain ⟨hsid, htc⟩ := wf id0 b hl
      by_cases hid : id0 = sid
      · subst hid
        have h1 : notifText id0 (replaceChunkText b.template b.text) = b.text := by
          simp [notifText, replaceChunkText_session_id, hsid,
            updateText_replaceChunkText b.template b.text htc]
        have h2 : bufText (setStore s id0 { b with text := "" }) id0 = "" := by
          simp [bufText, lookup_set_self id0 b _ s hl]
        simp [notifConcat, h1, h2, bufText, hl, lookup_set_self id0 b _ s hl]
      · have h1 : notifText sid (replaceChunkText b.template b.text) = "" := by
          simp [notifText, replaceChunkText_session_id, hsid, hid]
        have h2 : bufText (setStore s id0 { b with text := "" }) sid = bufText s sid := by
          simp [bufText, lookup_set_other id0 sid _ (fun hc => hid hc.symm) s]
        simp [notifConcat, h1, h2]

theorem flushLoop_concat (sid : SessionId) (ids : List SessionId) :
    ∀ s : Store, storeWF s →
      notifConcat sid (flushLoop s ids).2 ++ bufText (flushLoop s ids).1 sid
        = bufText s sid := by
  induction ids with
  | nil => intro s _; simp [flushLoop, notifConcat]
  | cons id0 rest ih =>
    intro s wf
    simp only [flushLoop]
    rw [notifConcat_append, String.append_assoc]
    rw [ih (flush_session s id0).1 (storeWF_flush_session s id0 wf)]
    exact flush_session_concat sid id0 s wf

theorem step_concat (sid : SessionId) (s : Store) (e : Event) (s' : Store)
    (outs : List Out) (wf : storeWF s) (hok : noBoundaryFor sid e = true)
    (h : step s e = some (s', outs)) :
    outConcat sid outs ++ bufText s' sid = bufText s sid ++ inputText sid e := by
  cases e with
  | tick =>
    simp only [step] at h
    cases h
    rw [outConcat_map_notif]
    simp only [flush_all]
    rw [flushLoop_concat sid (pendingSessionIds s) s wf]
    simp [inputText]
  | promptResponse =>
    simp only [step] at h
    cases h
    rw [outConcat_append, outConcat_map_notif]
    have h1 : outConcat sid [Out.promptDone] = "" := by simp [outConcat, outText]
    rw [h1, String.append_empty]
    simp only [flush_all]
    rw [flushLoop_concat sid (pendingSessionIds s) s wf]
    simp [inputText]
  | notif n =>
    by_cases htc : is_text_chunk n
    · obtain ⟨tc, cm, hu, hct⟩ := chunkText_of_is_text_chunk n htc
      simp only [step, if_pos htc, hct] at h
      cases h
      by_cases hsid : n.session_id = sid
      · subst hsid
        have h2 : bufText (accumulate s n tc.text) n.session_id
            = bufText s n.session_id ++ tc.text := by
          simp [bufText, accumulate_lookup_self s n tc.text]
        have h3 : inputText n.session_id (.notif n) = tc.text := by
          simp [inputText, notifText, updateText, hu]
        simp [outConcat, h2, h3]
      · have h2 : bufText (accumulate s n tc.text) sid = bufText s sid := by
          simp [bufText, accumulate_lookup_other s n tc.text sid (fun hc => hsid hc.symm)]
        have h3 : inputText sid (.notif n) = "" := by simp [inputText, notifText, hsid]
        simp [outConcat, h2, h3]
    · simp only [step, if_neg htc] at h
      cases h
      have hsid : n.session_id ≠ sid := by
        simp only [noBoundaryFor, Bool.or_eq_true, decide_eq_true_eq] at hok
        rcases hok with hne | htc'
        · exact hne
        · exact absurd htc' htc
      rw [outConcat_append, outConcat_map_notif]
      have h1 : outConcat sid [Out.notif n] = "" := by
        simp [outConcat, outText, notifText, hsid]
      have h2 : inputText sid (.notif n) = "" := by simp [inputText, notifText, hsid]
      rw [h1, h2, String.append_empty, String.append_empty]
      exact flush_session_concat sid n.session_id s wf

theorem run_concat (sid : SessionId) (es : List Event) :
    ∀ (s s' : Store) (outs : List Out), storeWF s →
      (∀ e ∈ es, noBoundaryFor sid e = true) →
      run s es = some (s', outs) →
      outConcat sid outs ++ bufText s' sid = bufText s sid ++ inputConcat sid es := by
  induction es with
  | nil =>
    intro s s' outs _ _ h
    simp only [run, Option.some.injEq] at h
    cases h
    simp [outConcat, inputConcat]
  | cons e rest ih =>
    intro s s' outs wf hok h
    simp only [run] at h
    cases hs : step s e with
    | none => rw [hs] at h; simp at h
    | some p =>
      obtain ⟨s1, out1⟩ := p
      rw [hs] at h
      simp only [Option.some_bind] at h
      cases hr : run s1 rest with
      | none => rw [hr] at h; simp at h
      | some q =>
        obtain ⟨s2, out2⟩ := q
        rw [hr] at h
        simp only [Option.map_some', Option.some.injEq, Prod.mk.injEq] at h
        obtain ⟨h1, h2⟩ := h
        subst h1
        subst h2
        have wf1 := storeWF_step s e s1 out1 wf hs
        have hstep := step_concat sid s e s1 out1 wf (hok e (List.mem_cons_self e rest)) hs
        have hrest := ih s1 s2 out2 wf1 (fun e' he' => hok e' (List.mem_cons_of_mem e he')) hr
        rw [outConcat_append, String.append_assoc, hrest, ← String.append_assoc, hstep]
        simp [inputConcat, String.append_assoc]

theorem run_append (es1 es2 : List Event) :
    ∀ s : Store, run s (es1 ++ es2) =
      (run s es1).bind fun p => (run p.1 es2).map fun q => (q.1, p.2 ++ q.2) := by
  induction es1 with
  | nil =>
    intro s
    simp only [List.nil_append, run, Option.some_bind]
    cases h : run s es2 with
    | none => simp
    | some q => simp
  | cons e rest ih =>
    intro s
    simp only [List.cons_append, run]
    cases hs : step s e with
    | none => simp
    | some p =>
      simp only [Option.some_bind, List.append_eq]
      rw [ih p.1]
      cases hr : run p.1 rest with
      | none => simp
      | some q =>
        simp only [Option.some_bind, Option.map_some']
        cases hq : run q.1 es2 with
        | none => simp
        | some r => simp [List.append_assoc]

/-! ### Records are never removed -/

theorem lookup_isSome_set (s : Store) (id0 id : SessionId) (b : BufferedSession)
    (h : (lookup s id).isSome) : (lookup (setStore s id0 b) id).isSome := by
  by_cases hid : id = id0
  · subst hid
    cases hs : lookup s id with
    | none => rw [hs] at h; simp at h
    | some b0 => rw [lookup_set_self id b0 b s hs]; rfl
  · rw [lookup_set_other id0 id b hid]
    exact h

theorem lookup_isSome_accumulate (s : Store) (n : SessionNotification) (t : String)
    (id : SessionId) (h : (lookup s id).isSome) :
    (lookup (accumulate s n t) id).isSome := by
  unfold accumulate
  cases hl : lookup s n.session_id with
  | some b => exact lookup_isSome_set s n.session_id id _ h
  | none =>
    rw [lookup_append_single]
    cases hs : lookup s id with
    | some x => rfl
    | none => rw [hs] at h; simp at h

theorem lookup_isSome_flush_session (s : Store) (id0 id : SessionId)
    (h : (lookup s id).isSome) : (lookup (flush_session s id0).1 id).isSome := by
  unfold flush_session
  cases hl : lookup s id0 with
  | none => exact h
  | some b =>
    by_cases hb : b.text = ""
    · simpa [hb] using h
    · simp only [if_neg hb]
      exact lookup_isSome_set s id0 id _ h

theorem lookup_isSome_flushLoop (ids : List SessionId) :
    ∀ (s : Store) (id : SessionId), (lookup s id).isSome →
      (lookup (flushLoop s ids).1 id).isSome := by
  induction ids with
  | nil => intro s id h; exact h
  | cons id0 rest ih =>
    intro s id h
    simp only [flushLoop]
    exact ih _ id (lookup_isSome_flush_session s id0 id h)

theorem lookup_isSome_step (s : Store) (e : Event) (s' : Store) (outs : List Out)
    (h : step s e = some (s', outs)) (id : SessionId)
    (hid : (lookup s id).isSome) : (lookup s' id).isSome := by
  cases e with
  | notif n =>
    by_cases htc : is_text_chunk n
    · obtain ⟨tc, cm, _, hct⟩ := chunkText_of_is_text_chunk n htc
      simp only [step, if_pos htc, hct] at h
      cases h
      exact lookup_isSome_accumulate s n tc.text id hid
    · simp only [step, if_neg htc] at h
      cases h
      exact lookup_isSome_flush_session s n.session_id id hid
  | promptResponse =>
    simp only [step] at h
    cases h
    exact lookup_isSome_flushLoop (pendingSessionIds s) s id hid
  | tick =>
    simp only [step] at h
    cases h
    exact lookup_isSome_flushLoop (pendingSessionIds s) s id hid

theorem flush_session_emit_iff (s : Store) (id : SessionId) :
    (flush_session s id).2.isSome ↔ bufText s id ≠ "" := by
  rw [flush_session_emit]
  unfold bufText
  cases hl : lookup s id with
  | none => simp
  | some b =>
    by_cases hb : b.text = ""
    · simp [hb]
    · simp [hb]

/-! ### Claim theorems -/

/-- Claim C2: when an inbound session event is classified as a boundary
event (not an accumulable text chunk), the handler first performs
`flush_session` for that event's session and only then forwards the
boundary event itself, unmodified; the emitted list therefore places the
coalesced event (when the flush produced one) strictly before the
boundary event, so downstream never observes the boundary before the
text accumulated for its session prior to it. -/
theorem c2_boundary_after_flush (s : Store) (n : SessionNotification)
    (h : is_text_chunk n = false) :
    step s (.notif n) =
      some ((flush_session s n.session_id).1,
        (flush_session s n.session_id).2.toList.map Out.notif ++ [Out.notif n]) := by
  simp [step, h]

theorem c2_boundary_after_flush_witness :
    step sampleStore (.notif sampleBoundary) =
      some ((flush_session sampleStore sampleBoundary.session_id).1,
        (flush_session sampleStore sampleBoundary.session_id).2.toList.map Out.notif
          ++ [Out.notif sampleBoundary]) :=
  c2_boundary_after_flush sampleStore sampleBoundary (by decide)

/-- Claim C3: for a session whose buffer holds non-empty text, one
`flush_session` invocation empties that buffer (the record stays, with
its template) and emits exactly one coalesced event whose text is the
whole accumulated text and whose every other field — session identifier,
notification metadata, chunk metadata, text annotations — is taken
verbatim from the most recently stored template.  The emission is a
single `Option`, so at most one event per invocation, and its text
equals the non-empty accumulated text, so an emitted event never has
empty text.  The hypothesis that the template's update is a text chunk
holds in every reachable store (claim C9). -/
theorem c3_flush_session_emits (s : Store) (id : SessionId) (b : BufferedSession)
    (tc : TextContent) (cm : Option String)
    (hl : lookup s id = some b) (hne : b.text ≠ "")
    (htpl : b.template.update = .agentMessageChunk ⟨.text tc, cm⟩) :
    flush_session s id =
      (setStore s id { b with text := "" },
       some { session_id := b.template.session_id,
              update := .agentMessageChunk ⟨.text { tc with text := b.text }, cm⟩,
              meta := b.template.meta }) ∧
    lookup (flush_session s id).1 id = some { text := "", template := b.template } := by
  constructor
  · simp [flush_session, hl, hne, replaceChunkText, htpl]
  · exact flush_session_lookup_self s id b hl

theorem c3_flush_session_emits_witness :
    flush_session sampleStore "s" =
      (setStore sampleStore "s" { text := "", template := sampleChunk "Hi " },
       some { session_id := (sampleChunk "Hi ").session_id,
              update := .agentMessageChunk
                ⟨.text { text := "Hi ", annots := none, meta := none }, none⟩,
              meta := (sampleChunk "Hi ").meta }) ∧
    lookup (flush_session sampleStore "s").1 "s" =
      some { text := "", template := sampleChunk "Hi " } :=
  c3_flush_session_emits sampleStore "s" { text := "Hi ", template := sampleChunk "Hi " }
    { text := "Hi ", annots := none, meta := none } none (by decide) (by decide) (by decide)

/-- Claim C4: an accumulable text chunk for a session is buffered and
nothing is emitted (and the handler cannot fail — it yields `some`):
when no record exists the new record's text is the fragment's text
(`bufText s _ = ""` then), otherwise the fragment is appended to the
existing text; in both cases the record's template becomes the newly
received notification, and every other session's record is untouched. -/
theorem c4_accumulate_chunk (s : Store) (n : SessionNotification) (tc : TextContent)
    (cm : Option String) (id : SessionId)
    (h : n.update = .agentMessageChunk ⟨.text tc, cm⟩) (hid : id ≠ n.session_id) :
    step s (.notif n) = some (accumulate s n tc.text, []) ∧
    lookup (accumulate s n tc.text) n.session_id =
      some { text := bufText s n.session_id ++ tc.text, template := n } ∧
    lookup (accumulate s n tc.text) id = lookup s id := by
  refine ⟨?_, accumulate_lookup_self s n tc.text,
    accumulate_lookup_other s n tc.text id hid⟩
  simp [step, is_text_chunk, chunkText, h]

theorem c4_accumulate_chunk_witness :
    step sampleStore (.notif (sampleChunk "there")) =
      some (accumulate sampleStore (sampleChunk "there") "there", []) ∧
    lookup (accumulate sampleStore (sampleChunk "there") "there")
        (sampleChunk "there").session_id =
      some { text := bufText sampleStore (sampleChunk "there").session_id ++ "there",
             template := sampleChunk "there" } ∧
    lookup (accumulate sampleStore (sampleChunk "there") "there") "t" =
      lookup sampleStore "t" :=
  c4_accumulate_chunk sampleStore (sampleChunk "there")
    { text := "there", annots := none, meta := none } none "t" (by decide) (by decide)

/-- Claim C5: immediately after the flush triggered by a prompt response
(the completion trigger, which runs `flush_all` before the response is
forwarded), every session record in the store has empty accumulated
text.  The embedding is sequential, matching the claim's assumption that
no new fragments arrive during the flush. -/
theorem c5_post_completion_empty (s s' : Store) (outs : List Out)
    (h : step s .promptResponse = some (s', outs)) (id : SessionId)
    (b : BufferedSession) (hb : lookup s' id = some b) : b.text = "" := by
  simp only [step] at h
  cases h
  exact flush_all_empties s id b hb

theorem c5_post_completion_empty_witness :
    ({ text := "", template := sampleChunk "Hi " } : BufferedSession).text = "" :=
  c5_post_completion_empty sampleStore
    [("s", { text := "", template := sampleChunk "Hi " })]
    [Out.notif (sampleChunk "Hi "), Out.promptDone]
    (by decide) "s" { text := "", template := sampleChunk "Hi " } (by decide)

/-- Claim C6: flushing a session whose record is absent or whose
accumulated text is empty (`bufText s id = ""` covers exactly these two
cases) emits nothing, leaves the entire store unchanged, and the
send-threaded version returns success. -/
theorem c6_flush_empty_noop (s : Store) (id : SessionId)
    (send : SessionNotification → Except String Unit)
    (h : bufText s id = "") :
    flush_session s id = (s, none) ∧
    flush_session_io send s id = (s, Except.ok ()) := by
  have h1 : flush_session s id = (s, none) := by
    cases hl : lookup s id with
    | none => exact flush_session_lookup_none s id hl
    | some b =>
      have hb : b.text = "" := by
        unfold bufText at h
        rw [hl] at h
        exact h
      simp [flush_session, hl, hb]
  exact ⟨h1, by simp [flush_session_io, h1]⟩

theorem c6_flush_empty_noop_witness :
    flush_session [("s", { text := "", template := sampleChunk "Hi " })] "s" =
      ([("s", { text := "", template := sampleChunk "Hi " })], none) ∧
    flush_session_io (fun _ => Except.ok ())
        [("s", { text := "", template := sampleChunk "Hi " })] "s" =
      ([("s", { text := "", template := sampleChunk "Hi " })], Except.ok ()) :=
  c6_flush_empty_noop [("s", { text := "", template := sampleChunk "Hi " })] "s"
    (fun _ => Except.ok ()) (by decide)

/-- Claim C1: for any sequence of events containing accumulable text
chunks for one session `sid` and no boundary event for `sid` (events for
other sessions and any number of flush triggers — timer ticks, prompt
responses, and the session flushes they perform — may be interleaved),
the concatenation of the texts of all events emitted downstream for
`sid` equals the concatenation of the input fragment texts, in order.
The trace is closed by the next timer tick (`es ++ [Event.tick]`), which
in the running middleware always occurs and flushes any remainder still
buffered when the last input arrives. -/
theorem c1_no_loss_concatenation (sid : SessionId) (es : List Event)
    (s' : Store) (outs : List Out)
    (hok : ∀ e ∈ es, noBoundaryFor sid e = true)
    (hrun : run [] (es ++ [Event.tick]) = some (s', outs)) :
    outConcat sid outs = inputConcat sid es := by
  rw [run_append] at hrun
  cases h1 : run [] es with
  | none => rw [h1] at hrun; simp at hrun
  | some p =>
    obtain ⟨s1, o1⟩ := p
    rw [h1] at hrun
    simp only [Option.some_bind] at hrun
    have htick : run s1 [Event.tick] =
        some ((flush_all s1).1, (flush_all s1).2.map Out.notif) := by
      simp [run, step]
    rw [htick] at hrun
    simp only [Option.map_some', Option.some.injEq, Prod.mk.injEq] at hrun
    obtain ⟨hs', houts⟩ := hrun
    subst hs'
    subst houts
    have wf1 : storeWF s1 := storeWF_run es [] s1 o1 storeWF_nil h1
    have hmain := run_concat sid es [] s1 o1 storeWF_nil hok h1
    have hempty : bufText (flush_all s1).1 sid = "" := by
      unfold bufText
      cases hf : lookup (flush_all s1).1 sid with
      | none => rfl
      | some b => exact flush_all_empties s1 sid b hf
    have hflush : notifConcat sid (flush_all s1).2 ++ bufText (flush_all s1).1 sid
        = bufText s1 sid := flushLoop_concat sid (pendingSessionIds s1) s1 wf1
    rw [hempty, String.append_empty] at hflush
    rw [outConcat_append, outConcat_map_notif, hflush, hmain]
    simp [bufText, lookup]

theorem c1_no_loss_concatenation_witness :
    outConcat "s" [Out.notif (sampleChunk "Hi ")] =
      inputConcat "s" [Event.notif (sampleChunk "Hi ")] :=
  c1_no_loss_concatenation "s" [Event.notif (sampleChunk "Hi ")]
    [("s", { text := "", template := sampleChunk "Hi " })]
    [Out.notif (sampleChunk "Hi ")] (by decide) (by decide)

/-- Claim C7 counterexample: the extraction `match` at lib.rs lines 81-87
does not return an explicit error when the event carries no text — its
wildcard arm is `unreachable!()`, a panic.  Evaluated at a message-chunk
notification whose content is not text, the extraction yields the
panic outcome, not an error value (its result type has no error
variant at all). -/
theorem c7_extraction_panics_counterexample :
    chunkText { session_id := "s",
                update := .agentMessageChunk ⟨.otherContent "image", none⟩,
                meta := none }
      = ExtractedText.panicked := rfl

/-- Claim C7 as amended: the code relies on the guarded `unreachable!()`
panic rather than an explicit error return, and the guard is sound: for
every notification the classifier marks as an accumulable text chunk,
the extraction succeeds with the chunk's text, and consequently the
handler never reaches the panic arm — `step` is total. -/
theorem c7_guarded_extraction (n : SessionNotification) (s : Store) (e : Event)
    (h : is_text_chunk n = true) :
    chunkText n = ExtractedText.ok ((updateText n.update).getD "") ∧
    (step s e).isSome := by
  obtain ⟨tc, cm, hu, hct⟩ := chunkText_of_is_text_chunk n h
  constructor
  · rw [hct, hu]
    simp [updateText]
  · cases e with
    | notif m =>
      by_cases htc : is_text_chunk m
      · obtain ⟨tc2, cm2, _, hct2⟩ := chunkText_of_is_text_chunk m htc
        simp [step, htc, hct2]
      · simp [step, htc]
    | promptResponse => simp [step]
    | tick => simp [step]

theorem c7_guarded_extraction_witness :
    chunkText (sampleChunk "Hi ") =
      ExtractedText.ok ((updateText (sampleChunk "Hi ").update).getD "") ∧
    (step sampleStore (.notif sampleBoundary)).isSome :=
  c7_guarded_extraction (sampleChunk "Hi ") sampleStore (.notif sampleBoundary) (by decide)

/-- Claim C8: no operation removes an entry from the store — every
session id present before a handler step is still present after it (a
flush empties the record's text but keeps the record) — and a flush
emits a coalesced event if and only if the text it drained was
non-empty. -/
theorem c8_records_persist (s : Store) (e : Event) (s' : Store) (outs : List Out)
    (h : step s e = some (s', outs)) (id : SessionId)
    (hid : (lookup s id).isSome) :
    (lookup s' id).isSome ∧
    ((flush_session s id).2.isSome ↔ bufText s id ≠ "") :=
  ⟨lookup_isSome_step s e s' outs h id hid, flush_session_emit_iff s id⟩

theorem c8_records_persist_witness :
    (lookup [("s", { text := "", template := sampleChunk "Hi " })] "s").isSome ∧
    ((flush_session sampleStore "s").2.isSome ↔ bufText sampleStore "s" ≠ "") :=
  c8_records_persist sampleStore (.notif sampleBoundary)
    [("s", { text := "", template := sampleChunk "Hi " })]
    [Out.notif (sampleChunk "Hi "), Out.notif sampleBoundary]
    (by decide) "s" (by decide)

/-- Claim C9: in every state reachable from the empty store, every stored
record's template is an `AgentMessageChunk` whose content is a text
block (templates are only stored or replaced from events that passed the
text-chunk classification); consequently, for a record with pending
text, the conditional replacement in `flush_session` applies and the
coalesced event's text is exactly the accumulated text, never the
template's stale original text. -/
theorem c9_reachable_template_is_chunk (es : List Event) (s' : Store)
    (outs : List Out) (h : run [] es = some (s', outs)) (id : SessionId)
    (b : BufferedSession) (hl : lookup s' id = some b) :
    is_text_chunk b.template = true ∧
    (b.text ≠ "" →
      (flush_session s' id).2 = some (replaceChunkText b.template b.text) ∧
      updateText (replaceChunkText b.template b.text).update = some b.text) := by
  have wf := storeWF_run es [] s' outs storeWF_nil h
  obtain ⟨hsid, htc⟩ := wf id b hl
  refine ⟨htc, fun hne => ⟨?_, updateText_replaceChunkText b.template b.text htc⟩⟩
  simp [flush_session, hl, hne]

theorem c9_reachable_template_is_chunk_witness :
    is_text_chunk ({ text := "Hi ", template := sampleChunk "Hi " }
        : BufferedSession).template = true ∧
    (flush_session [("s", { text := "Hi ", template := sampleChunk "Hi " })] "s").2 =
      some (replaceChunkText (sampleChunk "Hi ") "Hi ") ∧
    updateText (replaceChunkText (sampleChunk "Hi ") "Hi ").update = some "Hi " := by
  have h := c9_reachable_template_is_chunk [Event.notif (sampleChunk "Hi ")]
    [("s", { text := "Hi ", template := sampleChunk "Hi " })] [] (by decide)
    "s" { text := "Hi ", template := sampleChunk "Hi " } (by decide)
  exact ⟨h.1, (h.2 (by decide)).1, (h.2 (by decide)).2⟩

/-- Claim C10: `flush_session` drains the buffer inside the locked
section, before the send is attempted; when the send fails, the error is
returned with the buffer already empty — the drained text is not
restored, so the state change is not rolled back on error. -/
theorem c10_drain_not_rolled_back (send : SessionNotification → Except String Unit)
    (s : Store) (id : SessionId) (b : BufferedSession) (msg : String)
    (hl : lookup s id = some b) (hne : b.text ≠ "")
    (hsend : send (replaceChunkText b.template b.text) = .error msg) :
    flush_session_io send s id = (setStore s id { b with text := "" }, .error msg) ∧
    lookup (flush_session_io send s id).1 id =
      some { text := "", template := b.template } := by
  have hfs : flush_session s id =
      (setStore s id { b with text := "" },
       some (replaceChunkText b.template b.text)) := by
    simp [flush_session, hl, hne]
  constructor
  · simp [flush_session_io, hfs, hsend]
  · simp [flush_session_io, hfs, hsend, lookup_set_self id b _ s hl]

theorem c10_drain_not_rolled_back_witness :
    flush_session_io (fun _ => Except.error "transport closed") sampleStore "s" =
      (setStore sampleStore "s" { text := "", template := sampleChunk "Hi " },
       Except.error "transport closed") ∧
    lookup (flush_session_io (fun _ => Except.error "transport closed")
        sampleStore "s").1 "s" =
      some { text := "", template := sampleChunk "Hi " } :=
  c10_drain_not_rolled_back (fun _ => Except.error "transport closed") sampleStore "s"
    { text := "Hi ", template := sampleChunk "Hi " } "transport closed"
    (by decide) (by decide) rfl

end Decaf
